import Mathlib

/-!
Verification of the CampusConnect gamification backend.

The repository persists users, points, rewards, redemptions and a
leaderboard in a managed document database.  The database access layer
(backend/config/firebase.js) is embedded directly from the source; the
points calculator, the points/rewards controllers and the leaderboard
aggregator are modelled from the specification, since their source files
are not part of the repository snapshot (only the testing guide and the
configuration module are).
-/

namespace CampusConnect

/-! ## Database access layer (backend/config/firebase.js) -/

/-- Embeds the serviceAccountKey.json contents.  The JS module reads the
file with require; only project_id is consumed by the module, the other
credential fields are carried along opaquely. -/
structure ServiceAccount where
  project_id : String
  private_key : String
  client_email : String
deriving DecidableEq

/-- Embeds the collection-reference map built at module scope:
each key of the exported collections object names the collection of the
same name.  A pair (key, collectionName) stands for
key: db.collection(collectionName). -/
def collections : List (String × String) :=
  [("users", "users"), ("points", "points"), ("rewards", "rewards"),
   ("redemptions", "redemptions"), ("pointsHistory", "pointsHistory"),
   ("leaderboard", "leaderboard")]

/-- Embeds the value exported by the module once loading succeeds. -/
structure FirebaseModule where
  databaseURL : String
  collectionRefs : List (String × String)
deriving DecidableEq

/-- Embeds loading of backend/config/firebase.js.  The require of
serviceAccountKey.json throws when the file is absent, so the module
fails before any collection reference is produced; with the file present
the app is configured with the template-literal database URL and the
collection map is built. -/
def loadFirebaseModule (keyFile : Option ServiceAccount) :
    Except String FirebaseModule :=
  match keyFile with
  | none => Except.error "Cannot find module serviceAccountKey.json"
  | some sa =>
      Except.ok
        { databaseURL := "https://" ++ sa.project_id ++ ".firebaseio.com"
          collectionRefs := collections }

/-! ## Points calculator -/

/-- Modelled from the spec: the "new category" award of the points
calculator; the sample value documented in the spec and the testing
guide is 15. -/
def newCategoryAward : Nat := 15

/-- Modelled from the spec: the repeat award, documented only as being
strictly lower than the new-category award; the exact value is left open
by the spec, 5 is used as the representative lower value. -/
def repeatAward : Nat := 5

/-- Modelled from the spec: calculatePoints(category, attended, repeat)
returns the point award for an event, given its category, the set of
categories the user already attended, and the repeat-attendance flag.  A
category not in the attendance set earns the new-category award; a
category already attended earns the lower repeat award.  The source file
of the calculator is absent from the snapshot, so the branch table
beyond these two documented cases is not modelled further. -/
def calculatePoints (category : String) (attended : List String)
    (_isRepeat : Bool) : Nat :=
  if category ∈ attended then repeatAward else newCategoryAward

/-! ## Persistent state and controllers -/

/-- Modelled from the spec: the per-user document, holding the running
point balance and the attendance history (set of categories attended). -/
structure UserData where
  balance : Nat
  attended : List String
deriving DecidableEq

/-- Modelled from the spec: one entry of the pointsHistory ledger. -/
structure HistoryEntry where
  userId : String
  category : String
  points : Nat
deriving DecidableEq

/-- Modelled from the spec: one redemption record. -/
structure RedemptionRec where
  userId : String
  reward : String
  cost : Nat
deriving DecidableEq

/-- Modelled from the spec: the persisted collections the controllers
touch: the user documents, the append-only pointsHistory ledger and the
redemption records. -/
structure DbState where
  users : String → Option UserData
  pointsHistory : List HistoryEntry
  redemptions : List RedemptionRec

/-- Point award the controller computes for a stored user: the
calculator applied to the stored attendance history, with the repeat
flag derived from that history. -/
def awardValue (u : UserData) (category : String) : Nat :=
  calculatePoints category u.attended (u.attended.contains category)

/-- Successful effect of the award-points operation: one pointsHistory
entry is appended, the balance grows by the award and the category is
recorded as attended. -/
def awardApply (s : DbState) (uid category : String) (u : UserData) : DbState :=
  { users := fun v =>
      if v = uid then
        some { balance := u.balance + awardValue u category
               attended :=
                 if category ∈ u.attended then u.attended
                 else category :: u.attended }
      else s.users v
    pointsHistory :=
      s.pointsHistory ++
        [{ userId := uid, category := category, points := awardValue u category }]
    redemptions := s.redemptions }

/-- Modelled from the spec: the award-points operation of the points
controller.  An unknown user is a not-found error; otherwise the
calculator is invoked and its award applied to the state. -/
def awardPoints (s : DbState) (uid category : String) :
    Except String (DbState × Nat) :=
  match s.users uid with
  | none => Except.error "User not found"
  | some u => Except.ok (awardApply s uid category u, awardValue u category)

/-- Successful effect of the redeem operation: the cost is deducted
from the balance and a redemption record is created. -/
def redeemApply (s : DbState) (uid reward : String) (cost : Nat)
    (u : UserData) : DbState :=
  { users := fun v =>
      if v = uid then some { u with balance := u.balance - cost }
      else s.users v
    pointsHistory := s.pointsHistory
    redemptions :=
      s.redemptions ++ [{ userId := uid, reward := reward, cost := cost }] }

/-- Modelled from the spec: the redeem operation of the rewards
controller.  An unknown user is a not-found error; a balance below the
reward cost is rejected with a domain error and changes nothing;
otherwise the deduction and the redemption record are applied together. -/
def redeem (s : DbState) (uid reward : String) (cost : Nat) :
    Except String DbState :=
  match s.users uid with
  | none => Except.error "User not found"
  | some u =>
      if u.balance < cost then Except.error "Insufficient points"
      else Except.ok (redeemApply s uid reward cost u)

/-- Modelled from the spec: the operations a request can apply to the
persisted state. -/
inductive Op where
  | award (uid category : String)
  | redeemOp (uid reward : String) (cost : Nat)
  | recomputeLeaderboard
deriving DecidableEq

/-- Modelled from the spec: one controller invocation.  A rejected award
or redemption leaves the persisted state unchanged; the leaderboard is a
derived view, so its recomputation reads but never writes the ledger
collections. -/
def applyOp (s : DbState) (op : Op) : DbState :=
  match op with
  | Op.award uid category =>
      match awardPoints s uid category with
      | Except.ok (s', _) => s'
      | Except.error _ => s
  | Op.redeemOp uid reward cost =>
      match redeem s uid reward cost with
      | Except.ok s' => s'
      | Except.error _ => s
  | Op.recomputeLeaderboard => s

/-- Runs a sequence of controller invocations. -/
def runOps (s : DbState) (ops : List Op) : DbState := ops.foldl applyOp s

/-- Modelled from the spec: users are created at registration with a
zero balance and an empty attendance history; the ledgers start empty. -/
def registerUsers (uids : List String) : DbState :=
  { users := fun v =>
      if v ∈ uids then some { balance := 0, attended := [] } else none
    pointsHistory := []
    redemptions := [] }

/-- Sum of the awarded points of the ledger entries of one user. -/
def sumPointsFor (h : List HistoryEntry) (uid : String) : Nat :=
  ((h.filter fun e => e.userId = uid).map HistoryEntry.points).sum

/-- Sum of the costs of the redemption records of one user. -/
def sumCostsFor (r : List RedemptionRec) (uid : String) : Nat :=
  ((r.filter fun c => c.userId = uid).map RedemptionRec.cost).sum

/-- Total awarded points recorded for a user in a state. -/
def historyTotal (s : DbState) (uid : String) : Nat :=
  sumPointsFor s.pointsHistory uid

/-- Total redeemed cost recorded for a user in a state. -/
def redeemedTotal (s : DbState) (uid : String) : Nat :=
  sumCostsFor s.redemptions uid

/-- Ledger invariant: every stored balance plus the total redeemed cost
equals the total of the awarded points recorded for that user. -/
def BalanceInv (s : DbState) : Prop :=
  ∀ uid u, s.users uid = some u →
    u.balance + redeemedTotal s uid = historyTotal s uid

/-- Concrete sample state used to exercise the redeem operation: one
user with a balance of 10 points. -/
def sampleRedeemState : DbState :=
  { users := fun v =>
      if v = "a" then some { balance := 10, attended := [] } else none
    pointsHistory := []
    redemptions := [] }

/-! ## Leaderboard aggregator -/

/-- Modelled from the spec: one entry of the derived leaderboard. -/
structure LeaderboardEntry where
  userId : String
  totalPoints : Nat
deriving DecidableEq

/-- Ordering of leaderboard entries: points descending. -/
def entryGE (a b : LeaderboardEntry) : Prop :=
  b.totalPoints ≤ a.totalPoints

instance : DecidableRel entryGE := fun a b =>
  inferInstanceAs (Decidable (b.totalPoints ≤ a.totalPoints))

instance : IsTotal LeaderboardEntry entryGE :=
  ⟨fun a b => Nat.le_total b.totalPoints a.totalPoints⟩

instance : IsTrans LeaderboardEntry entryGE :=
  ⟨fun _ _ _ h h' => Nat.le_trans h' h⟩

/-- Modelled from the spec: the leaderboard aggregator produces the
ranked standings of the given users from their accumulated points,
ordered by total points descending. -/
def aggregateLeaderboard (uids : List String) (s : DbState) :
    List LeaderboardEntry :=
  List.insertionSort entryGE
    (uids.filterMap fun uid =>
      (s.users uid).map fun u => { userId := uid, totalPoints := u.balance })

end CampusConnect

namespace CampusConnect

/-! ## Theorems -/

/-- C1: for every category c, attendance set A and repeat flag false, if
c is not a member of A then calculatePoints returns the new-category
award of 15 points. -/
theorem calculatePoints_new_category (c : String) (A : List String)
    (h : c ∉ A) : calculatePoints c A false = 15 := by
  simp [calculatePoints, h, newCategoryAward]

/-- C1 witness: the documented sample,
calculatePoints("academic", ["social"], false) = 15. -/
theorem calculatePoints_new_category_sample :
    calculatePoints "academic" ["social"] false = 15 :=
  calculatePoints_new_category "academic" ["social"] (by decide)

/-- C2: for every category c already in the attendance set A with the
repeat flag true, calculatePoints returns the repeat award, and the
repeat award is strictly lower than the new-category award of 15. -/
theorem calculatePoints_repeat_category (c : String) (A : List String)
    (h : c ∈ A) :
    calculatePoints c A true = repeatAward ∧ repeatAward < 15 := by
  refine ⟨?_, by decide⟩
  simp [calculatePoints, h]

/-- C2 witness: a repeated social event earns the lower repeat award. -/
theorem calculatePoints_repeat_category_sample :
    calculatePoints "social" ["social"] true = repeatAward ∧ repeatAward < 15 :=
  calculatePoints_repeat_category "social" ["social"] (by decide)

/-- C8: with the service-account credential file absent, loading the
database configuration module fails before any collection reference is
produced; with the file present, loading succeeds and yields the
configured module. -/
theorem firebase_startup (sa : ServiceAccount) :
    (∃ e, loadFirebaseModule none = Except.error e) ∧
    (∃ m, loadFirebaseModule (some sa) = Except.ok m) :=
  ⟨⟨"Cannot find module serviceAccountKey.json", rfl⟩, ⟨_, rfl⟩⟩

/-- C9: the exported collections map has exactly the six keys users,
points, rewards, redemptions, pointsHistory, leaderboard, in that order,
and every key maps to the collection of the same name. -/
theorem collections_exact_six :
    collections.map Prod.fst =
      ["users", "points", "rewards", "redemptions", "pointsHistory", "leaderboard"] ∧
    collections.all (fun p => p.snd == p.fst) = true := by
  decide

/-- C10: the database URL passed to the client is exactly
"https://" ++ project_id ++ ".firebaseio.com", and depends on nothing
but the project_id field of the credential file. -/
theorem databaseURL_from_project_id (sa sa' : ServiceAccount)
    (m m' : FirebaseModule)
    (h : loadFirebaseModule (some sa) = Except.ok m)
    (h' : loadFirebaseModule (some sa') = Except.ok m')
    (hp : sa.project_id = sa'.project_id) :
    m.databaseURL = "https://" ++ sa.project_id ++ ".firebaseio.com" ∧
    m.databaseURL = m'.databaseURL := by
  simp only [loadFirebaseModule, Except.ok.injEq] at h h'
  subst h h'
  exact ⟨rfl, by rw [hp]⟩

/-! Helper lemmas about the ledger totals. -/

theorem sumPointsFor_append (h1 h2 : List HistoryEntry) (uid : String) :
    sumPointsFor (h1 ++ h2) uid = sumPointsFor h1 uid + sumPointsFor h2 uid := by
  simp [sumPointsFor, List.filter_append]

theorem sumPointsFor_single (e : HistoryEntry) (uid : String) :
    sumPointsFor [e] uid = if e.userId = uid then e.points else 0 := by
  by_cases h : e.userId = uid <;> simp [sumPointsFor, h]

theorem sumCostsFor_append (r1 r2 : List RedemptionRec) (uid : String) :
    sumCostsFor (r1 ++ r2) uid = sumCostsFor r1 uid + sumCostsFor r2 uid := by
  simp [sumCostsFor, List.filter_append]

theorem sumCostsFor_single (c : RedemptionRec) (uid : String) :
    sumCostsFor [c] uid = if c.userId = uid then c.cost else 0 := by
  by_cases h : c.userId = uid <;> simp [sumCostsFor, h]

/-! Helper lemmas: the ledger invariant is preserved. -/

theorem balanceInv_awardApply (s : DbState) (uid0 category : String)
    (u0 : UserData) (hu : s.users uid0 = some u0) (h : BalanceInv s) :
    BalanceInv (awardApply s uid0 category u0) := by
  intro uid u hget
  have hhist : historyTotal (awardApply s uid0 category u0) uid =
      historyTotal s uid +
        (if uid0 = uid then awardValue u0 category else 0) := by
    simp [historyTotal, awardApply, sumPointsFor_append, sumPointsFor_single]
  have hred : redeemedTotal (awardApply s uid0 category u0) uid =
      redeemedTotal s uid := rfl
  by_cases he : uid = uid0
  · subst he
    have hb := h uid u0 hu
    simp [awardApply] at hget
    cases hget
    rw [hhist, hred]
    simp only [eq_self_iff_true, ite_true]
    omega
  · simp only [awardApply] at hget
    rw [if_neg he] at hget
    have hb := h uid u hget
    rw [hhist, hred, if_neg fun hh => he hh.symm]
    omega

theorem balanceInv_redeemApply (s : DbState) (uid0 reward : String)
    (cost : Nat) (u0 : UserData) (hu : s.users uid0 = some u0)
    (hc : ¬ u0.balance < cost) (h : BalanceInv s) :
    BalanceInv (redeemApply s uid0 reward cost u0) := by
  intro uid u hget
  have hhist : historyTotal (redeemApply s uid0 reward cost u0) uid =
      historyTotal s uid := rfl
  have hred : redeemedTotal (redeemApply s uid0 reward cost u0) uid =
      redeemedTotal s uid + (if uid0 = uid then cost else 0) := by
    simp [redeemedTotal, redeemApply, sumCostsFor_append, sumCostsFor_single]
  by_cases he : uid = uid0
  · subst he
    have hb := h uid u0 hu
    simp [redeemApply] at hget
    cases hget
    rw [hhist, hred]
    simp only [eq_self_iff_true, ite_true]
    omega
  · simp only [redeemApply] at hget
    rw [if_neg he] at hget
    have hb := h uid u hget
    rw [hhist, hred, if_neg fun hh => he hh.symm]
    omega

theorem balanceInv_applyOp (s : DbState) (op : Op) (h : BalanceInv s) :
    BalanceInv (applyOp s op) := by
  cases op with
  | award uid category =>
      cases hu : s.users uid with
      | none => simpa [applyOp, awardPoints, hu] using h
      | some u0 =>
          simpa [applyOp, awardPoints, hu] using
            balanceInv_awardApply s uid category u0 hu h
  | redeemOp uid reward cost =>
      cases hu : s.users uid with
      | none => simpa [applyOp, redeem, hu] using h
      | some u0 =>
          by_cases hc : u0.balance < cost
          · simpa [applyOp, redeem, hu, hc] using h
          · simpa [applyOp, redeem, hu, hc] using
              balanceInv_redeemApply s uid reward cost u0 hu hc h
  | recomputeLeaderboard => exact h

theorem balanceInv_registerUsers (uids : List String) :
    BalanceInv (registerUsers uids) := by
  intro uid u hget
  simp only [registerUsers] at hget
  by_cases hm : uid ∈ uids
  · rw [if_pos hm] at hget
    cases hget
    rfl
  · rw [if_neg hm] at hget
    cases hget

theorem balanceInv_runOps (s : DbState) (ops : List Op) (h : BalanceInv s) :
    BalanceInv (runOps s ops) := by
  induction ops generalizing s with
  | nil => exact h
  | cons op ops ih => exact ih (applyOp s op) (balanceInv_applyOp s op h)

/-- C3: redeeming succeeds exactly when the balance covers the cost; on
success the balance becomes balance − cost and a redemption record is
appended; on rejection a domain error is returned and the state, hence
the balance, is unchanged. -/
theorem redeem_balance_check (s : DbState) (uid reward : String)
    (cost : Nat) (u : UserData) (h : s.users uid = some u) :
    ((∃ s', redeem s uid reward cost = Except.ok s') ↔ cost ≤ u.balance) ∧
    (∀ s', redeem s uid reward cost = Except.ok s' →
       (∃ u', s'.users uid = some u' ∧ u'.balance = u.balance - cost) ∧
       s'.redemptions =
         s.redemptions ++ [{ userId := uid, reward := reward, cost := cost }]) ∧
    (u.balance < cost →
       redeem s uid reward cost = Except.error "Insufficient points" ∧
       applyOp s (Op.redeemOp uid reward cost) = s) := by
  by_cases hc : u.balance < cost
  · refine ⟨⟨?_, ?_⟩, ?_, fun _ =>
      ⟨by simp [redeem, h, hc], by simp [applyOp, redeem, h, hc]⟩⟩
    · rintro ⟨s', hs'⟩
      simp [redeem, h, hc] at hs'
    · intro hle
      omega
    · intro s' hs'
      simp [redeem, h, hc] at hs'
  · refine ⟨⟨fun _ => Nat.le_of_not_lt hc, fun _ =>
      ⟨redeemApply s uid reward cost u, by simp [redeem, h, hc]⟩⟩,
      ?_, fun hlt => absurd hlt hc⟩
    intro s' hs'
    simp only [redeem, h, if_neg hc, Except.ok.injEq] at hs'
    subst hs'
    refine ⟨⟨{ u with balance := u.balance - cost }, ?_, rfl⟩, rfl⟩
    simp [redeemApply]

/-- C3 witness: a user with 10 points redeems a reward costing 4. -/
theorem redeem_balance_check_sample :
    ((∃ s', redeem sampleRedeemState "a" "mug" 4 = Except.ok s') ↔
        4 ≤ ({ balance := 10, attended := [] } : UserData).balance) ∧
    (∀ s', redeem sampleRedeemState "a" "mug" 4 = Except.ok s' →
       (∃ u', s'.users "a" = some u' ∧
          u'.balance = ({ balance := 10, attended := [] } : UserData).balance - 4) ∧
       s'.redemptions = sampleRedeemState.redemptions ++
         [{ userId := "a", reward := "mug", cost := 4 }]) ∧
    (({ balance := 10, attended := [] } : UserData).balance < 4 →
       redeem sampleRedeemState "a" "mug" 4 = Except.error "Insufficient points" ∧
       applyOp sampleRedeemState (Op.redeemOp "a" "mug" 4) = sampleRedeemState) :=
  redeem_balance_check sampleRedeemState "a" "mug" 4
    { balance := 10, attended := [] } rfl

/-- C4: awarding points to a known user succeeds, appends exactly one
pointsHistory entry (the ledger grows by one), and the balance grows by
exactly the points recorded in that entry. -/
theorem awardPoints_appends_one (s : DbState) (uid category : String)
    (u : UserData) (h : s.users uid = some u) :
    ∃ s' p, awardPoints s uid category = Except.ok (s', p) ∧
      s'.pointsHistory =
        s.pointsHistory ++ [{ userId := uid, category := category, points := p }] ∧
      s'.pointsHistory.length = s.pointsHistory.length + 1 ∧
      ∃ u', s'.users uid = some u' ∧ u'.balance = u.balance + p := by
  refine ⟨awardApply s uid category u, awardValue u category, ?_, rfl, ?_, ?_⟩
  · simp [awardPoints, h]
  · simp [awardApply]
  · exact ⟨{ balance := u.balance + awardValue u category
             attended :=
               if category ∈ u.attended then u.attended
               else category :: u.attended },
           by simp [awardApply], rfl⟩

/-- C4 witness: awarding the first event to a freshly registered user. -/
theorem awardPoints_appends_one_sample :
    ∃ s' p, awardPoints (registerUsers ["a"]) "a" "x" = Except.ok (s', p) ∧
      s'.pointsHistory =
        (registerUsers ["a"]).pointsHistory ++
          [{ userId := "a", category := "x", points := p }] ∧
      s'.pointsHistory.length = (registerUsers ["a"]).pointsHistory.length + 1 ∧
      ∃ u', s'.users "a" = some u' ∧
        u'.balance = ({ balance := 0, attended := [] } : UserData).balance + p :=
  awardPoints_appends_one (registerUsers ["a"]) "a" "x"
    { balance := 0, attended := [] } rfl

/-- C5: in every state reachable from registration by award and redeem
operations, each stored balance equals the sum of the awarded points of
that user's pointsHistory entries minus the total cost of that user's
redemptions. -/
theorem balance_eq_ledger (uids : List String) (ops : List Op)
    (uid : String) (u : UserData)
    (h : (runOps (registerUsers uids) ops).users uid = some u) :
    u.balance =
      historyTotal (runOps (registerUsers uids) ops) uid -
      redeemedTotal (runOps (registerUsers uids) ops) uid := by
  have hinv :=
    balanceInv_runOps (registerUsers uids) ops (balanceInv_registerUsers uids)
  have hb := hinv uid u h
  omega

/-- C5 witness: one award of 15 followed by a redemption of 3 leaves a
balance of 12 = 15 − 3. -/
theorem balance_eq_ledger_sample :
    ({ balance := 12, attended := ["x"] } : UserData).balance =
      historyTotal
        (runOps (registerUsers ["a"]) [Op.award "a" "x", Op.redeemOp "a" "r" 3]) "a" -
      redeemedTotal
        (runOps (registerUsers ["a"]) [Op.award "a" "x", Op.redeemOp "a" "r" 3]) "a" :=
  balance_eq_ledger ["a"] [Op.award "a" "x", Op.redeemOp "a" "r" 3] "a"
    { balance := 12, attended := ["x"] } rfl

/-- C6: every leaderboard the aggregator produces is monotonically
non-increasing in total points: each entry has at least the points of
the entry that follows it. -/
theorem leaderboard_monotone (uids : List String) (s : DbState) (i : Nat)
    (h : i + 1 < (aggregateLeaderboard uids s).length) :
    ((aggregateLeaderboard uids s).get ⟨i + 1, h⟩).totalPoints ≤
    ((aggregateLeaderboard uids s).get ⟨i, Nat.lt_of_succ_lt h⟩).totalPoints := by
  have hs : List.Sorted entryGE (aggregateLeaderboard uids s) :=
    List.sorted_insertionSort entryGE _
  exact hs.rel_get_of_lt (Nat.lt_succ_self i)

/-- C6 witness: adjacent entries of the leaderboard of two fresh users. -/
theorem leaderboard_monotone_sample :
    ((aggregateLeaderboard ["a", "b"] (registerUsers ["a", "b"])).get
        ⟨0 + 1, by decide⟩).totalPoints ≤
    ((aggregateLeaderboard ["a", "b"] (registerUsers ["a", "b"])).get
        ⟨0, by decide⟩).totalPoints :=
  leaderboard_monotone ["a", "b"] (registerUsers ["a", "b"]) 0 (by decide)

/-! Helper lemma: one operation only ever appends to the ledger. -/

theorem pointsHistory_applyOp (s : DbState) (op : Op) :
    ∃ t, (applyOp s op).pointsHistory = s.pointsHistory ++ t := by
  cases op with
  | award uid category =>
      cases hu : s.users uid with
      | none => exact ⟨[], by simp [applyOp, awardPoints, hu]⟩
      | some u =>
          exact ⟨[{ userId := uid, category := category,
                    points := awardValue u category }],
                 by simp [applyOp, awardPoints, hu, awardApply]⟩
  | redeemOp uid reward cost =>
      cases hu : s.users uid with
      | none => exact ⟨[], by simp [applyOp, redeem, hu]⟩
      | some u =>
          by_cases hc : u.balance < cost
          · exact ⟨[], by simp [applyOp, redeem, hu, hc]⟩
          · exact ⟨[], by simp [applyOp, redeem, hu, hc, redeemApply]⟩
  | recomputeLeaderboard => exact ⟨[], by simp [applyOp]⟩

/-- C7: no sequence of award, redeem and leaderboard-recomputation
operations ever removes or modifies an existing pointsHistory entry:
the ledger after the run extends the ledger before it. -/
theorem pointsHistory_append_only (s : DbState) (ops : List Op) :
    ∃ t, (runOps s ops).pointsHistory = s.pointsHistory ++ t := by
  induction ops generalizing s with
  | nil => exact ⟨[], (List.append_nil _).symm⟩
  | cons op ops ih =>
      obtain ⟨t1, h1⟩ := pointsHistory_applyOp s op
      obtain ⟨t2, h2⟩ := ih (applyOp s op)
      refine ⟨t1 ++ t2, ?_⟩
      show (runOps (applyOp s op) ops).pointsHistory = _
      rw [h2, h1, List.append_assoc]

/-- C10 witness: two credentials sharing project id "campusconnect" but
differing in every other field yield the same concrete URL. -/
theorem databaseURL_from_project_id_sample :
    ({ databaseURL := "https://campusconnect.firebaseio.com"
       collectionRefs := collections } : FirebaseModule).databaseURL =
      "https://" ++ "campusconnect" ++ ".firebaseio.com" ∧
    ({ databaseURL := "https://campusconnect.firebaseio.com"
       collectionRefs := collections } : FirebaseModule).databaseURL =
    ({ databaseURL := "https://campusconnect.firebaseio.com"
       collectionRefs := collections } : FirebaseModule).databaseURL :=
  databaseURL_from_project_id
    { project_id := "campusconnect", private_key := "k1", client_email := "a" }
    { project_id := "campusconnect", private_key := "k2", client_email := "b" }
    _ _ rfl rfl rfl

end CampusConnect
